import Mathlib

/-!
Shallow embedding of the medical-ai-assistant orchestration layer:
configuration (src/config/settings.py), pydantic data models
(src/core/models.py), conversation memory (src/agents/memory.py), the
capability gate (src/services/guard_service.py) and the query entry point
of the agent (src/agents/medical_agent.py).  External effects (the hosted
LLM, the LangChain executor) are passed in as explicit arguments: a call
that may raise is an `Except String` value, `.error e` meaning the call
raised an exception whose message is `e`.
-/

namespace MedAssist

/-! ## Python string primitives -/

/-- Prefix test on character lists (used to embed Python substring
containment). -/
def isPrefixOfChars : List Char → List Char → Bool
  | [], _ => true
  | _ :: _, [] => false
  | c :: cs, d :: ds => c == d && isPrefixOfChars cs ds

/-- Substring containment on character lists: Python `needle in hay`. -/
def containsSub (needle : List Char) : List Char → Bool
  | [] => needle.isEmpty
  | c :: rest => isPrefixOfChars needle (c :: rest) || containsSub needle rest

/-- Python `pat in s` for strings. -/
def strContains (s pat : String) : Bool :=
  containsSub pat.toList s.toList

/-- The characters after the first occurrence of a separator character;
embeds Python `s.split(sep, 1)[1]` for a single-character separator that
occurs in `s`. -/
def afterFirstChar (sep : Char) : List Char → List Char
  | [] => []
  | c :: rest => if c == sep then rest else afterFirstChar sep rest

/-- Python `s.lower()` (the repository only lowercases ASCII text, where
`Char.toLower` agrees with Python). -/
def pyLower (s : String) : String :=
  String.mk (s.toList.map Char.toLower)

/-- Python `s.upper()`. -/
def pyUpper (s : String) : String :=
  String.mk (s.toList.map Char.toUpper)

/-- Python `s.strip()`: drop whitespace from both ends. -/
def pyStrip (s : String) : String :=
  String.mk
    (((s.toList.dropWhile Char.isWhitespace).reverse.dropWhile Char.isWhitespace).reverse)

/-- Python `s.startswith(pat)`. -/
def pyStartsWith (s pat : String) : Bool :=
  isPrefixOfChars pat.toList s.toList

/-! ## Settings (src/config/settings.py)

Only the fields the verified components read.  The pydantic defaults are
the values used at runtime: the repository never overrides them. -/

structure Settings where
  max_iterations : Nat
  max_memory_turns : Nat
  medical_keywords : List String
deriving Repr, DecidableEq

def settings : Settings :=
  { max_iterations := 15
    max_memory_turns := 10
    medical_keywords :=
      ["symptom", "disease", "treatment", "diagnosis", "medical", "health",
       "patient", "doctor", "hospital", "clinic", "medication", "drug",
       "pain", "fever", "infection", "cancer", "diabetes", "surgery",
       "prescription", "therapy", "clinical", "pharmaceutical", "radiology",
       "x-ray", "mri", "ct scan", "blood", "test", "laboratory", "anatomy",
       "pathology", "cardiology", "neurology", "oncology"] }

/-! ## Data models (src/core/models.py)

`Message` and `QueryResult` are pydantic `BaseModel`s.  Pydantic (v2,
default config) initialization: each declared field takes the keyword
argument carrying exactly the field name when one is present, and its
declared default otherwise; a keyword argument whose name matches no
declared field is silently ignored.  Attribute reads expose exactly the
declared fields; any other attribute name raises `AttributeError`.  Both
behaviors are embedded below (`fromKwargs`, `getattr`). -/

inductive MessageRole where
  | user
  | assistant
  | system
deriving Repr, DecidableEq

/-- `MessageRole.value`: the payload string of the `str`-valued enum. -/
def MessageRole.value : MessageRole → String
  | .user => "user"
  | .assistant => "assistant"
  | .system => "system"

/-- Python values passed as keyword arguments or read back as attributes. -/
inductive PyVal where
  | pstr : String → PyVal
  | pbool : Bool → PyVal
  | prole : MessageRole → PyVal
  | plist : List String → PyVal
  | pcounts : List (String × Nat) → PyVal
  | pdict : List (String × String) → PyVal
  | pnat : Nat → PyVal
  | pnone : PyVal
deriving Repr, DecidableEq

/-- Keyword-argument lookup by name (first binding wins, as in Python where
duplicate keywords are a syntax error). -/
def kwLookup (kw : List (String × PyVal)) (name : String) : Option PyVal :=
  (kw.find? (fun p => p.1 == name)).map (fun p => p.2)

/-- `Message` (src/core/models.py): role, content, timestamp,
`tool_used` (note the singular: the declared field is `tool_used`, not
`tools_used`), metadata.  The wall-clock timestamp is abstracted as a
natural number; its default factory reading is abstracted as 0. -/
structure Message where
  role : MessageRole
  content : String
  timestamp : Nat
  tool_used : List String
  metadata : List (String × String)
deriving Repr, DecidableEq

/-- Pydantic initialization of `Message`.  The two call sites in the
repository always pass `role` and `content` (the required fields), so the
placeholder defaults used here for them are never exercised. -/
def Message.fromKwargs (kw : List (String × PyVal)) : Message :=
  { role := match kwLookup kw "role" with
      | some (.prole r) => r
      | _ => .system
    content := match kwLookup kw "content" with
      | some (.pstr s) => s
      | _ => ""
    timestamp := match kwLookup kw "timestamp" with
      | some (.pnat t) => t
      | _ => 0
    tool_used := match kwLookup kw "tool_used" with
      | some (.plist l) => l
      | _ => []
    metadata := match kwLookup kw "metadata" with
      | some (.pdict d) => d
      | _ => [] }

/-- Python attribute read on a `Message`: the declared fields are the only
attributes; any other name raises `AttributeError`. -/
def Message.getattr (m : Message) (name : String) : Except String PyVal :=
  if name == "role" then .ok (.prole m.role)
  else if name == "content" then .ok (.pstr m.content)
  else if name == "timestamp" then .ok (.pnat m.timestamp)
  else if name == "tool_used" then .ok (.plist m.tool_used)
  else if name == "metadata" then .ok (.pdict m.metadata)
  else .error ("AttributeError: " ++ name)

/-- `QueryResult` (src/core/models.py).  The declared optional field is
`rejected_reason`. -/
structure QueryResult where
  response : String
  success : Bool
  rejected : Bool
  rejected_reason : Option String
  tools_used : List String
  tool_call_counts : List (String × Nat)
  metadata : List (String × String)
deriving Repr, DecidableEq

/-- Pydantic initialization of `QueryResult`; `response` and `success` are
required and always passed by the call sites, the other fields default. -/
def QueryResult.fromKwargs (kw : List (String × PyVal)) : QueryResult :=
  { response := match kwLookup kw "response" with
      | some (.pstr s) => s
      | _ => ""
    success := match kwLookup kw "success" with
      | some (.pbool b) => b
      | _ => false
    rejected := match kwLookup kw "rejected" with
      | some (.pbool b) => b
      | _ => false
    rejected_reason := match kwLookup kw "rejected_reason" with
      | some (.pstr s) => some s
      | _ => none
    tools_used := match kwLookup kw "tools_used" with
      | some (.plist l) => l
      | _ => []
    tool_call_counts := match kwLookup kw "tool_call_counts" with
      | some (.pcounts d) => d
      | _ => []
    metadata := match kwLookup kw "metadata" with
      | some (.pdict d) => d
      | _ => [] }

/-! ## Conversation memory (src/agents/memory.py) -/

structure Memory where
  max_history : Nat
  history : List Message
deriving Repr, DecidableEq

/-- `ConversationMemory.__init__`: `self.max_history = max_history or
settings.max_memory_turns` — Python `or` takes the default both for `None`
and for a falsy `0`. -/
def Memory.init (max_history : Option Nat) : Memory :=
  { max_history := match max_history with
      | none => settings.max_memory_turns
      | some 0 => settings.max_memory_turns
      | some k => k
    history := [] }

/-- The user message appended by `add_exchange`. -/
def userMessage (user_query : String) : Message :=
  Message.fromKwargs [("role", .prole .user), ("content", .pstr user_query)]

/-- The assistant message appended by `add_exchange`.  Note the keyword
`tools_used` does not name a declared field of `Message` (the field is
`tool_used`), so pydantic drops it and `tool_used` keeps its default `[]`. -/
def assistantMessage (assistant_response : String) (tools_used : List String) : Message :=
  Message.fromKwargs
    [("role", .prole .assistant), ("content", .pstr assistant_response),
     ("tools_used", .plist tools_used)]

/-- `ConversationMemory.add_exchange`: append the user and assistant
messages, then trim to the last `max_history * 2` entries when the length
exceeds that cap.  Python `lst[-k:]` with `k = max_history * 2` is the
whole list when `k = 0` and the last `k` entries otherwise. -/
def Memory.add_exchange (mem : Memory) (user_query assistant_response : String)
    (tools_used : List String) : Memory :=
  let h := mem.history ++ [userMessage user_query,
                           assistantMessage assistant_response tools_used]
  let h :=
    if mem.max_history * 2 < h.length then
      if mem.max_history * 2 = 0 then h
      else h.drop (h.length - mem.max_history * 2)
    else h
  { mem with history := h }

/-- One rendered turn of `get_recent_context`:
`f"User: {u.content}\nAssistant: {a.content[:150]}...\n"`. -/
def renderedTurn (u a : Message) : String :=
  "User: " ++ u.content ++ "\n" ++ "Assistant: " ++ a.content.take 150 ++ "...\n"

/-- The while-loop of `get_recent_context`: walk the recent messages two at
a time, rendering each (user, assistant) pair; a trailing unpaired message
is skipped (`i += 1` without emitting). -/
def renderPairs : List Message → List String
  | u :: a :: rest => renderedTurn u a :: renderPairs rest
  | _ => []

/-- `ConversationMemory.get_recent_context`: `"No recent conversation."`
on an empty history, otherwise the header joined with the rendered pairs of
the last `n * 2` messages (Python slice `history[-(n*2):]`, the whole list
when `n = 0`). -/
def Memory.get_recent_context (mem : Memory) (n : Nat) : String :=
  if mem.history.isEmpty then "No recent conversation."
  else
    let recent :=
      if n * 2 = 0 then mem.history
      else mem.history.drop (mem.history.length - min (n * 2) mem.history.length)
    String.intercalate "\n" ("RECENT CONVERSATION CONTEXT:\n" :: renderPairs recent)

/-- `ConversationMemory.clear_history`. -/
def Memory.clear_history (mem : Memory) : Memory :=
  { mem with history := [] }

/-- `ConversationMemory.get_all_messages`. -/
def Memory.get_all_messages (mem : Memory) : List Message :=
  mem.history

/-- One entry of `export_history`: a dict read off a stored message.  The
reads of `role`, `content`, `timestamp` and `metadata` are reads of
declared fields and always succeed (embedded directly); the read of
`msg.tools_used` is an attribute lookup that no declared field backs, so
it is embedded through `Message.getattr`. -/
def exportEntry (msg : Message) : Except String (List (String × PyVal)) := do
  let tu ← msg.getattr "tools_used"
  pure [("role", .pstr msg.role.value), ("content", .pstr msg.content),
        ("timestamp", .pnat msg.timestamp), ("tools_used", tu),
        ("metadata", .pdict msg.metadata)]

/-- The list comprehension of `export_history`: entries are produced left to
right and the first raised exception propagates. -/
def exportList : List Message → Except String (List (List (String × PyVal)))
  | [] => .ok []
  | msg :: rest => do
      let e ← exportEntry msg
      let es ← exportList rest
      pure (e :: es)

/-- `ConversationMemory.export_history`. -/
def Memory.export_history (mem : Memory) : Except String (List (List (String × PyVal))) :=
  exportList mem.history

/-! ## Capability gate (src/services/guard_service.py) -/

/-- The layer-2 verb phrases, verbatim from `is_medical_query`. -/
def medical_verbs : List String :=
  ["analyze", "diagnosis", "examine", "assess", "evaluate",
   "check", "look at", "review", "interpret"]

/-- Layer 1: some configured keyword occurs in the lowercased query. -/
def hasMedicalKeyword (query : String) : Bool :=
  settings.medical_keywords.any (fun kw => strContains (pyLower query) kw)

/-- Layer 2: some verb phrase occurs in the lowercased query. -/
def hasMedicalVerb (query : String) : Bool :=
  medical_verbs.any (fun verb => strContains (pyLower query) verb)

/-- `GuardService.is_medical_query`.  `llmCall` is the outcome of
`self.llm_service.generate_text(validation_prompt)`: `.ok raw` is the raw
returned text (the code then strips it into the local variable `response`),
`.error e` means the call raised.  The `except` branch returns
`(True, "Validation inconclusive - allowing")`. -/
def is_medical_query (query : String) (llmCall : Except String String) : Bool × String :=
  if hasMedicalKeyword query then
    (true, "Medical keywords detected")
  else if hasMedicalVerb query then
    (true, "Medical context detected")
  else
    match llmCall with
    | .error _ => (true, "Validation inconclusive - allowing")
    | .ok raw =>
      let response := pyStrip raw
      if pyStartsWith (pyUpper response) "YES" then
        (true, "LLM validated as medical")
      else
        let reason :=
          if strContains response "-" then
            pyStrip (String.mk (afterFirstChar (Char.ofNat 45) response.toList))
          else "Not medical"
        (false, reason)

/-- `GuardService.get_rejection_message`. -/
def get_rejection_message (reason : String) : String :=
  "I apologize, but I\x27m a specialized medical AI assistant.\n\nReason: "
    ++ reason
    ++ "\n\nI can help with:\nMedical conditions and symptoms\nTreatment options and medications\nMedical image analysis\nClinical guidelines\nHealth calculations\nPlease ask a medical or healthcare question!"

/-! ## Agent loop (src/agents/medical_agent.py)

The LangChain `AgentExecutor` is an external collaborator, not code of
this repository; only its invocation and the configuration
`max_iterations=settings.max_iterations` live in `MedicalAgent.__init__`. -/

/-- The output of `agent_executor.invoke`, restricted to the keys
`MedicalAgent.query` reads: `output` and `intermediate_steps`, each step
carrying the tool name invoked and its input. -/
structure ExecResult where
  output : String
  intermediate_steps : List (String × String)
deriving Repr, DecidableEq

/-- One decision of the hosted reasoning model inside the ReAct loop:
invoke a tool, or emit the final answer. -/
inductive AgentDecision where
  | act : String → String → AgentDecision
  | finish : String → AgentDecision

/-- Loop body of the executor model: consume at most `fuel` decisions,
accumulating the tool steps taken. -/
def runExecutorGo (decisions : Nat → AgentDecision) :
    Nat → Nat → List (String × String) → ExecResult
  | 0, _, steps =>
      { output := "Agent stopped due to iteration limit or time limit."
        intermediate_steps := steps.reverse }
  | fuel + 1, i, steps =>
      match decisions i with
      | .finish answer => { output := answer, intermediate_steps := steps.reverse }
      | .act tool input => runExecutorGo decisions fuel (i + 1) ((tool, input) :: steps)

/-- Modelled from the spec: the LangChain `AgentExecutor` that drives the
ReAct loop is missing from the repository sources (only its construction
with `max_iterations=settings.max_iterations` is, in
`MedicalAgent.__init__`).  Per the spec, the agent loop bounds the number
of tool invocations: each iteration asks the hosted model (an opaque
decision oracle, here a stream `decisions`) for one step, which either
invokes a single tool — recorded in `intermediate_steps` — or finishes
with the answer, and the loop stops after `maxIter` iterations. -/
def runExecutor (maxIter : Nat) (decisions : Nat → AgentDecision) : ExecResult :=
  runExecutorGo decisions maxIter 0 []

/-- The tool-usage extraction of `MedicalAgent.query`:
`tool_usage[tool_name] = tool_usage.get(tool_name, 0) + 1` over a Python
dict, which preserves insertion order: an existing key is bumped in place,
a new key is appended with count 1. -/
def bumpCount : List (String × Nat) → String → List (String × Nat)
  | [], k => [(k, 1)]
  | (k0, n) :: rest, k =>
      if k0 == k then (k0, n + 1) :: rest else (k0, n) :: bumpCount rest k

/-- The fold over `result["intermediate_steps"]` building `tool_usage`. -/
def countToolUsage (steps : List (String × String)) : List (String × Nat) :=
  steps.foldl (fun d step => bumpCount d step.1) []

/-- Sum of the counts of a tool-usage dict. -/
def sumCounts (d : List (String × Nat)) : Nat :=
  (d.map (fun p => p.2)).sum

/-- `MedicalAgent.query`.  The two external effects are arguments:
`guardCall` is the LLM outcome seen by `GuardService.is_medical_query`
(layer 3), and `ex` is the outcome of `agent_executor.invoke` — `.error e`
when the execution raises an exception rendered as `e`.  Returns the
`QueryResult` and the memory after the call. -/
def MedicalAgent.query (mem : Memory) (enable_guard skip_guard : Bool)
    (question : String) (guardCall : Except String String)
    (ex : Except String ExecResult) : QueryResult × Memory :=
  if enable_guard && !skip_guard && !(is_medical_query question guardCall).1 then
    let reason := (is_medical_query question guardCall).2
    (QueryResult.fromKwargs
      [("response", .pstr (get_rejection_message reason)),
       ("success", .pbool false),
       ("rejected", .pbool true),
       ("rejection_reason", .pstr reason)], mem)
  else
    match ex with
    | .ok result =>
        let tool_usage := countToolUsage result.intermediate_steps
        let response_text := result.output
        let tools_used := tool_usage.map (fun p => p.1)
        let mem2 := mem.add_exchange question response_text tools_used
        (QueryResult.fromKwargs
          [("response", .pstr response_text),
           ("success", .pbool true),
           ("rejected", .pbool false),
           ("tools_used", .plist tools_used),
           ("tool_call_counts", .pcounts tool_usage)], mem2)
    | .error e =>
        let error_message := "Error processing query: " ++ e
        let mem2 := mem.add_exchange question error_message []
        (QueryResult.fromKwargs
          [("response", .pstr error_message),
           ("success", .pbool false),
           ("rejected", .pbool false),
           ("metadata", .pdict [("error", e)])], mem2)

/-! ## Specification-side auxiliary definitions -/

/-- The user/assistant alternation invariant of the conversation history:
even length, `USER` at even indices, `ASSISTANT` at odd indices. -/
def wellFormed : List Message → Bool
  | [] => true
  | u :: a :: rest =>
      (u.role == MessageRole.user) && (a.role == MessageRole.assistant) && wellFormed rest
  | _ => false

/-- The (user, assistant) pairs of a history, in order. -/
def toPairs : List Message → List (Message × Message)
  | u :: a :: rest => (u, a) :: toPairs rest
  | _ => []

end MedAssist

namespace MedAssist

/-! ## Basic facts about the embedded constructors -/

theorem userMessage_role (q : String) : (userMessage q).role = MessageRole.user := rfl

theorem userMessage_content (q : String) : (userMessage q).content = q := rfl

theorem assistantMessage_role (r : String) (tools : List String) :
    (assistantMessage r tools).role = MessageRole.assistant := rfl

theorem assistantMessage_content (r : String) (tools : List String) :
    (assistantMessage r tools).content = r := rfl

/-! ## Well-formedness lemmas -/

theorem wellFormed_append (l m : List Message) (hl : wellFormed l = true)
    (hm : wellFormed m = true) : wellFormed (l ++ m) = true := by
  induction l using wellFormed.induct with
  | case1 => simpa using hm
  | case2 u a rest ih =>
      simp only [wellFormed, List.cons_append, Bool.and_eq_true, beq_iff_eq] at hl ⊢
      exact ⟨hl.1, ih hl.2⟩
  | case3 x h1 h2 =>
      cases x with
      | nil => exact absurd rfl h1
      | cons y ys =>
          cases ys with
          | nil => simp [wellFormed] at hl
          | cons z zs => exact absurd rfl (h2 y z zs)

theorem wellFormed_pair (q r : String) (tools : List String) :
    wellFormed [userMessage q, assistantMessage r tools] = true := by
  simp [wellFormed, userMessage_role, assistantMessage_role]

theorem wellFormed_drop_even (k : Nat) (l : List Message) (h : wellFormed l = true) :
    wellFormed (l.drop (2 * k)) = true := by
  induction k generalizing l with
  | zero => simpa using h
  | succ k ih =>
      match l with
      | [] => simp [wellFormed]
      | [x] => simp [wellFormed] at h
      | u :: a :: rest =>
          have h2 : 2 * (k + 1) = (2 * k) + 2 := by ring
          rw [h2]
          show wellFormed (rest.drop (2 * k)) = true
          simp only [wellFormed, Bool.and_eq_true] at h
          exact ih rest h.2

theorem wellFormed_length_even (l : List Message) (h : wellFormed l = true) :
    l.length % 2 = 0 := by
  induction l using wellFormed.induct with
  | case1 => rfl
  | case2 u a rest ih =>
      simp only [wellFormed, Bool.and_eq_true] at h
      have := ih h.2
      simp only [List.length_cons]
      omega
  | case3 x h1 h2 =>
      cases x with
      | nil => exact absurd rfl h1
      | cons y ys =>
          cases ys with
          | nil => simp [wellFormed] at h
          | cons z zs => exact absurd rfl (h2 y z zs)

theorem wellFormed_roles (l : List Message) (h : wellFormed l = true) :
    ∀ i (hi : i < l.length),
      (l.get ⟨i, hi⟩).role =
        if i % 2 = 0 then MessageRole.user else MessageRole.assistant := by
  induction l using wellFormed.induct with
  | case1 => intro i hi; exact absurd hi (by simp)
  | case2 u a rest ih =>
      simp only [wellFormed, Bool.and_eq_true, beq_iff_eq] at h
      intro i hi
      match i with
      | 0 => simpa using h.1.1
      | 1 => simpa using h.1.2
      | i + 2 =>
          have hi2 : i < rest.length := by
            simpa [Nat.add_lt_add_iff_right] using hi
          have := ih h.2 i hi2
          simpa [List.get, Nat.add_mod_right] using this
  | case3 x h1 h2 =>
      cases x with
      | nil => exact absurd rfl h1
      | cons y ys =>
          cases ys with
          | nil => simp [wellFormed] at h
          | cons z zs => exact absurd rfl (h2 y z zs)

end MedAssist

namespace MedAssist

/-! ## Pair-structure lemmas for `get_recent_context` -/

theorem renderPairs_eq_toPairs (l : List Message) :
    renderPairs l = (toPairs l).map (fun p => renderedTurn p.1 p.2) := by
  induction l using toPairs.induct with
  | case1 u a rest ih =>
      show renderedTurn u a :: renderPairs rest = _
      simp only [toPairs, List.map_cons]
      exact congrArg _ ih
  | case2 x h1 =>
      cases x with
      | nil => rfl
      | cons y ys =>
          cases ys with
          | nil => rfl
          | cons z zs => exact absurd rfl (h1 y z zs)

theorem toPairs_drop (k : Nat) (l : List Message) :
    toPairs (l.drop (2 * k)) = (toPairs l).drop k := by
  induction k generalizing l with
  | zero => simp
  | succ k ih =>
      match l with
      | [] => simp [toPairs]
      | [x] =>
          have h1 : [x].drop (2 * (k + 1)) = [] := by
            apply List.drop_eq_nil_of_le
            simp
            omega
          have h2 : toPairs [x] = [] := rfl
          rw [h1, h2]
          simp [toPairs]
      | u :: a :: rest =>
          have h2 : 2 * (k + 1) = (2 * k) + 2 := by ring
          rw [h2]
          show toPairs (rest.drop (2 * k)) = (toPairs (u :: a :: rest)).drop (k + 1)
          have h3 : toPairs (u :: a :: rest) = (u, a) :: toPairs rest := rfl
          rw [h3, List.drop_succ_cons]
          exact ih rest

theorem toPairs_length (l : List Message) : (toPairs l).length = l.length / 2 := by
  induction l using toPairs.induct with
  | case1 u a rest ih =>
      show ((u, a) :: toPairs rest).length = (u :: a :: rest).length / 2
      simp only [List.length_cons, ih]
      omega
  | case2 x h1 =>
      cases x with
      | nil => rfl
      | cons y ys =>
          cases ys with
          | nil =>
              rw [show toPairs [y] = [] from rfl]
              simp
          | cons z zs => exact absurd rfl (h1 y z zs)

end MedAssist

namespace MedAssist

/-- C2: after every `add_exchange` on a history that satisfies the memory
invariant (even length, at most `2 × max_history` messages), the history
holds at most `2 × max_history` messages; when the add would exceed the
cap, exactly the oldest user/assistant pair is dropped and the most recent
messages are kept in order. -/
theorem add_exchange_cap (mem : Memory) (q r : String) (tools : List String)
    (hmax : 1 ≤ mem.max_history)
    (hlen : mem.history.length ≤ mem.max_history * 2)
    (heven : mem.history.length % 2 = 0) :
    (mem.add_exchange q r tools).history.length ≤ mem.max_history * 2 ∧
    (mem.add_exchange q r tools).history =
      (if mem.max_history * 2 < mem.history.length + 2
        then mem.history.drop 2 else mem.history)
        ++ [userMessage q, assistantMessage r tools] := by
  have hlen2 : (mem.history ++ [userMessage q, assistantMessage r tools]).length
      = mem.history.length + 2 := by simp
  unfold Memory.add_exchange
  simp only [hlen2]
  by_cases hc : mem.max_history * 2 < mem.history.length + 2
  · have hzero : ¬(mem.max_history * 2 = 0) := by omega
    have hL : mem.history.length = mem.max_history * 2 := by omega
    have hdrop : mem.history.length + 2 - mem.max_history * 2 = 2 := by omega
    rw [if_pos hc, if_neg hzero, hdrop,
        List.drop_append_of_le_length (by omega), if_pos hc]
    constructor
    · simp
      omega
    · rfl
  · rw [if_neg hc, if_neg hc]
    constructor
    · simp
      omega
    · rfl

/-- Witness for C2 at a concrete capped memory: with `max_history = 1` and
a full history, adding a new exchange drops the oldest pair. -/
theorem add_exchange_cap_witness :
    ((⟨1, [userMessage "a", assistantMessage "b" []]⟩ : Memory).add_exchange
        "c" "d" []).history = [userMessage "c", assistantMessage "d" []] := by
  have h := add_exchange_cap ⟨1, [userMessage "a", assistantMessage "b" []]⟩
    "c" "d" [] (by decide) (by decide) (by decide)
  rw [h.2]
  decide

/-- C3: the conversation history invariant — even length, `USER` at even
indices and `ASSISTANT` at odd indices — is preserved by `add_exchange`
(which appends the user/assistant pair atomically) and by
`clear_history`. -/
theorem memory_alternation (mem : Memory) (q r : String) (tools : List String)
    (h : wellFormed mem.history = true) :
    wellFormed ((mem.add_exchange q r tools).history) = true ∧
    wellFormed ((mem.clear_history).history) = true ∧
    (mem.add_exchange q r tools).history.length % 2 = 0 ∧
    ∀ i (hi : i < (mem.add_exchange q r tools).history.length),
      ((mem.add_exchange q r tools).history.get ⟨i, hi⟩).role =
        if i % 2 = 0 then MessageRole.user else MessageRole.assistant := by
  have happ : wellFormed (mem.history ++ [userMessage q, assistantMessage r tools]) = true :=
    wellFormed_append _ _ h (wellFormed_pair q r tools)
  have happlen : (mem.history ++ [userMessage q, assistantMessage r tools]).length % 2 = 0 :=
    wellFormed_length_even _ happ
  have hshape : (mem.add_exchange q r tools).history =
      if mem.max_history * 2 <
          (mem.history ++ [userMessage q, assistantMessage r tools]).length then
        if mem.max_history * 2 = 0 then
          mem.history ++ [userMessage q, assistantMessage r tools]
        else (mem.history ++ [userMessage q, assistantMessage r tools]).drop
          ((mem.history ++ [userMessage q, assistantMessage r tools]).length
            - mem.max_history * 2)
      else mem.history ++ [userMessage q, assistantMessage r tools] := rfl
  have hadd : wellFormed ((mem.add_exchange q r tools).history) = true := by
    rw [hshape]
    by_cases hc : mem.max_history * 2 <
        (mem.history ++ [userMessage q, assistantMessage r tools]).length
    · by_cases hzero : mem.max_history * 2 = 0
      · rw [if_pos hc, if_pos hzero]
        exact happ
      · rw [if_pos hc, if_neg hzero]
        have hdropeven :
            (mem.history ++ [userMessage q, assistantMessage r tools]).length
              - mem.max_history * 2
            = 2 * (((mem.history ++ [userMessage q, assistantMessage r tools]).length
              - mem.max_history * 2) / 2) := by omega
        rw [hdropeven]
        exact wellFormed_drop_even _ _ happ
    · rw [if_neg hc]
      exact happ
  exact ⟨hadd, by rfl, wellFormed_length_even _ hadd, wellFormed_roles _ hadd⟩

/-- Witness for C3 at a concrete well-formed memory. -/
theorem memory_alternation_witness :
    wellFormed (((⟨10, [userMessage "q0", assistantMessage "r0" []]⟩ : Memory).add_exchange
        "q1" "r1" ["tool"]).history) = true :=
  (memory_alternation ⟨10, [userMessage "q0", assistantMessage "r0" []]⟩
    "q1" "r1" ["tool"] (by decide)).1

end MedAssist

namespace MedAssist

/-- C4: on an even-length history, `get_recent_context n` with `n ≥ 1`
renders exactly the last `min n (length / 2)` user/assistant pairs, in
order, each as a `User:`/`Assistant:` block with the assistant content
truncated to its first 150 characters (`renderedTurn`); on an empty
history it returns `"No recent conversation."`. -/
theorem get_recent_context_spec (mem : Memory) (n : Nat) (hn : 1 ≤ n)
    (heven : mem.history.length % 2 = 0) :
    mem.get_recent_context n =
      if mem.history.isEmpty then "No recent conversation."
      else
        String.intercalate "\n" ("RECENT CONVERSATION CONTEXT:\n" ::
          ((toPairs mem.history).drop
              ((toPairs mem.history).length - min n (mem.history.length / 2))).map
            (fun p => renderedTurn p.1 p.2)) := by
  have hshape : mem.get_recent_context n =
      if mem.history.isEmpty then "No recent conversation."
      else
        String.intercalate "\n" ("RECENT CONVERSATION CONTEXT:\n" ::
          renderPairs
            (if n * 2 = 0 then mem.history
             else mem.history.drop
               (mem.history.length - min (n * 2) mem.history.length))) := rfl
  rw [hshape]
  by_cases hE : mem.history.isEmpty
  · rw [if_pos hE, if_pos hE]
  · rw [if_neg hE, if_neg hE]
    have hzero : ¬(n * 2 = 0) := by omega
    rw [if_neg hzero]
    have hk : mem.history.length - min (n * 2) mem.history.length
        = 2 * ((toPairs mem.history).length - min n (mem.history.length / 2)) := by
      rw [toPairs_length]
      omega
    rw [hk, renderPairs_eq_toPairs, toPairs_drop]

set_option maxRecDepth 4096 in
/-- Witness for C4 at a concrete two-message history and `n = 1`. -/
theorem get_recent_context_spec_witness :
    (⟨10, [userMessage "hi", assistantMessage "hello back" []]⟩ : Memory).get_recent_context 1
      = "RECENT CONVERSATION CONTEXT:\n\nUser: hi\nAssistant: hello back...\n" := by
  rw [get_recent_context_spec ⟨10, [userMessage "hi", assistantMessage "hello back" []]⟩ 1
    (by decide) (by decide)]
  decide

end MedAssist

namespace MedAssist

/-- C1: whenever the layer-3 LLM call raises (`llmCall = .error e`),
`is_medical_query` returns `True` for the admissibility flag — the gate
fails open on a model-call error. -/
theorem guard_fails_open (query e : String) :
    (is_medical_query query (.error e)).1 = true := by
  unfold is_medical_query
  by_cases h1 : hasMedicalKeyword query
  · rw [if_pos h1]
  · rw [if_neg h1]
    by_cases h2 : hasMedicalVerb query
    · rw [if_pos h2]
    · rw [if_neg h2]

/-- C5: the three layers of `is_medical_query` apply in order — a keyword
hit returns `True` without the verb layer or the LLM (the result does not
depend on `llmCall`); otherwise a verb-phrase hit returns `True` without
the LLM; only otherwise is the LLM consulted, and the flag is `True`
exactly when its response (the raw text stripped of surrounding
whitespace, as the code does before testing) starts with `"YES"`
case-insensitively (uppercased, then prefix-tested). -/
theorem guard_three_layers (query : String) :
    (∀ llmCall, hasMedicalKeyword query = true →
      is_medical_query query llmCall = (true, "Medical keywords detected")) ∧
    (∀ llmCall, hasMedicalKeyword query = false → hasMedicalVerb query = true →
      is_medical_query query llmCall = (true, "Medical context detected")) ∧
    (∀ raw, hasMedicalKeyword query = false → hasMedicalVerb query = false →
      ((is_medical_query query (.ok raw)).1 = true ↔
        pyStartsWith (pyUpper (pyStrip raw)) "YES" = true)) := by
  refine ⟨?_, ?_, ?_⟩
  · intro llmCall h1
    unfold is_medical_query
    rw [if_pos h1]
  · intro llmCall h1 h2
    unfold is_medical_query
    rw [if_neg (by simp [h1]), if_pos h2]
  · intro raw h1 h2
    unfold is_medical_query
    rw [if_neg (by simp [h1]), if_neg (by simp [h2])]
    by_cases hs : pyStartsWith (pyUpper (pyStrip raw)) "YES" = true
    · simp only [hs, if_pos rfl]
      simp
    · have hs2 : pyStartsWith (pyUpper (pyStrip raw)) "YES" = false := by
        simpa using hs
      simp only [hs2]
      constructor
      · intro hcontra
        simp at hcontra
      · intro hcontra
        simp at hcontra

/-- Witness for C5: one concrete query per layer — a keyword hit, a
verb-phrase hit with no keyword, and two LLM-decided queries (an accepting
stripped `" yes - ..."` response and a refusing `"No - ..."` response). -/
theorem guard_three_layers_witness :
    is_medical_query "I have a fever" (.error "provider down")
      = (true, "Medical keywords detected") ∧
    is_medical_query "please look at this" (.ok "NO - irrelevant")
      = (true, "Medical context detected") ∧
    (is_medical_query "good morning" (.ok " yes - wellness greeting")).1 = true ∧
    (is_medical_query "good morning" (.ok "No - just a greeting")).1 = false := by
  refine ⟨?_, ?_, ?_, ?_⟩
  · exact (guard_three_layers "I have a fever").1 _ (by decide)
  · exact (guard_three_layers "please look at this").2.1 _ (by decide) (by decide)
  · exact ((guard_three_layers "good morning").2.2 _ (by decide) (by decide)).mpr (by decide)
  · have h := ((guard_three_layers "good morning").2.2
      "No - just a greeting" (by decide) (by decide))
    by_contra hc
    have : (is_medical_query "good morning" (.ok "No - just a greeting")).1 = true := by
      revert hc
      cases (is_medical_query "good morning" (.ok "No - just a greeting")).1 <;> simp
    have : pyStartsWith (pyUpper (pyStrip "No - just a greeting")) "YES" = true := h.mp this
    exact absurd this (by decide)

end MedAssist

namespace MedAssist

/-! ## Structural lemmas about `add_exchange` and `MedicalAgent.query` -/

theorem add_exchange_history_eq (mem : Memory) (q r : String) (tools : List String) :
    (mem.add_exchange q r tools).history =
      if mem.max_history * 2 <
          (mem.history ++ [userMessage q, assistantMessage r tools]).length then
        if mem.max_history * 2 = 0 then
          mem.history ++ [userMessage q, assistantMessage r tools]
        else (mem.history ++ [userMessage q, assistantMessage r tools]).drop
          ((mem.history ++ [userMessage q, assistantMessage r tools]).length
            - mem.max_history * 2)
      else mem.history ++ [userMessage q, assistantMessage r tools] := rfl

theorem add_exchange_suffix (mem : Memory) (q r : String) (tools : List String)
    (hmax : 1 ≤ mem.max_history) :
    ∃ pre, (mem.add_exchange q r tools).history
      = pre ++ [userMessage q, assistantMessage r tools] := by
  rw [add_exchange_history_eq]
  have hlen : (mem.history ++ [userMessage q, assistantMessage r tools]).length
      = mem.history.length + 2 := by simp
  by_cases hc : mem.max_history * 2 <
      (mem.history ++ [userMessage q, assistantMessage r tools]).length
  · have hzero : ¬(mem.max_history * 2 = 0) := by omega
    rw [if_pos hc, if_neg hzero]
    rw [hlen] at hc ⊢
    refine ⟨mem.history.drop (mem.history.length + 2 - mem.max_history * 2), ?_⟩
    exact List.drop_append_of_le_length (by omega)
  · exact ⟨mem.history, by rw [if_neg hc]⟩

theorem query_rejected_eq (mem : Memory) (question : String)
    (guardCall : Except String String) (ex : Except String ExecResult)
    (h : (is_medical_query question guardCall).1 = false) :
    MedicalAgent.query mem true false question guardCall ex =
      (QueryResult.fromKwargs
        [("response", .pstr (get_rejection_message (is_medical_query question guardCall).2)),
         ("success", .pbool false),
         ("rejected", .pbool true),
         ("rejection_reason", .pstr (is_medical_query question guardCall).2)], mem) := by
  have hc : (true && !false && !(is_medical_query question guardCall).1) = true := by
    rw [h]
    rfl
  unfold MedicalAgent.query
  rw [if_pos hc]

theorem query_ok_eq (mem : Memory) (enable_guard skip_guard : Bool)
    (question : String) (guardCall : Except String String) (result : ExecResult)
    (h : (enable_guard && !skip_guard && !(is_medical_query question guardCall).1) = false) :
    MedicalAgent.query mem enable_guard skip_guard question guardCall (.ok result) =
      (QueryResult.fromKwargs
        [("response", .pstr result.output),
         ("success", .pbool true),
         ("rejected", .pbool false),
         ("tools_used", .plist ((countToolUsage result.intermediate_steps).map (fun p => p.1))),
         ("tool_call_counts", .pcounts (countToolUsage result.intermediate_steps))],
       mem.add_exchange question result.output
         ((countToolUsage result.intermediate_steps).map (fun p => p.1))) := by
  unfold MedicalAgent.query
  rw [if_neg (by rw [h]; exact Bool.false_ne_true)]

theorem query_err_eq (mem : Memory) (enable_guard skip_guard : Bool)
    (question : String) (guardCall : Except String String) (e : String)
    (h : (enable_guard && !skip_guard && !(is_medical_query question guardCall).1) = false) :
    MedicalAgent.query mem enable_guard skip_guard question guardCall (.error e) =
      (QueryResult.fromKwargs
        [("response", .pstr ("Error processing query: " ++ e)),
         ("success", .pbool false),
         ("rejected", .pbool false),
         ("metadata", .pdict [("error", e)])],
       mem.add_exchange question ("Error processing query: " ++ e) []) := by
  unfold MedicalAgent.query
  rw [if_neg (by rw [h]; exact Bool.false_ne_true)]

end MedAssist

namespace MedAssist

/-- C6: when the agent execution raises, `MedicalAgent.query` returns a
`QueryResult` with `success = false` and `rejected = false` instead of
propagating the exception, and the conversation memory still gains the
(question, error-message) exchange as its most recent pair. -/
theorem query_error_recovery (mem : Memory) (enable_guard skip_guard : Bool)
    (question : String) (guardCall : Except String String) (e : String)
    (hguard : (enable_guard && !skip_guard && !(is_medical_query question guardCall).1) = false)
    (hmax : 1 ≤ mem.max_history) :
    (MedicalAgent.query mem enable_guard skip_guard question guardCall
        (.error e)).1.success = false ∧
    (MedicalAgent.query mem enable_guard skip_guard question guardCall
        (.error e)).1.rejected = false ∧
    ∃ pre, (MedicalAgent.query mem enable_guard skip_guard question guardCall
        (.error e)).2.history
      = pre ++ [userMessage question,
                assistantMessage ("Error processing query: " ++ e) []] := by
  rw [query_err_eq mem enable_guard skip_guard question guardCall e hguard]
  exact ⟨rfl, rfl, add_exchange_suffix mem question ("Error processing query: " ++ e) [] hmax⟩

/-- Witness for C6 at a concrete failing execution. -/
theorem query_error_recovery_witness :
    (MedicalAgent.query ⟨10, []⟩ true false "what is a fever" (.error "guard llm down")
        (.error "boom")).1.success = false ∧
    (MedicalAgent.query ⟨10, []⟩ true false "what is a fever" (.error "guard llm down")
        (.error "boom")).1.rejected = false ∧
    ∃ pre, (MedicalAgent.query ⟨10, []⟩ true false "what is a fever" (.error "guard llm down")
        (.error "boom")).2.history
      = pre ++ [userMessage "what is a fever",
                assistantMessage ("Error processing query: " ++ "boom") []] :=
  query_error_recovery ⟨10, []⟩ true false "what is a fever" (.error "guard llm down")
    "boom" (by decide) (by decide)

/-! ## Tool-invocation counting lemmas -/

theorem sumCounts_bumpCount (d : List (String × Nat)) (k : String) :
    sumCounts (bumpCount d k) = sumCounts d + 1 := by
  induction d with
  | nil => rfl
  | cons p rest ih =>
      obtain ⟨k0, n⟩ := p
      by_cases hk : (k0 == k) = true
      · simp [bumpCount, hk, sumCounts]
        omega
      · have hk2 : (k0 == k) = false := by
          revert hk
          cases (k0 == k) <;> simp
        simp only [bumpCount, hk2, Bool.false_eq_true, if_false]
        simp only [sumCounts, List.map_cons, List.sum_cons] at ih ⊢
        omega

theorem sumCounts_foldl (steps : List (String × String)) :
    ∀ d, sumCounts (steps.foldl (fun d step => bumpCount d step.1) d)
      = sumCounts d + steps.length := by
  induction steps with
  | nil => intro d; simp
  | cons s rest ih =>
      intro d
      simp only [List.foldl_cons, List.length_cons]
      rw [ih (bumpCount d s.1), sumCounts_bumpCount]
      omega

theorem sumCounts_countToolUsage (steps : List (String × String)) :
    sumCounts (countToolUsage steps) = steps.length := by
  unfold countToolUsage
  rw [sumCounts_foldl]
  simp [sumCounts]

theorem runExecutorGo_steps_length (decisions : Nat → AgentDecision) :
    ∀ (fuel i : Nat) (steps : List (String × String)),
      (runExecutorGo decisions fuel i steps).intermediate_steps.length
        ≤ fuel + steps.length := by
  intro fuel
  induction fuel with
  | zero =>
      intro i steps
      simp [runExecutorGo]
  | succ fuel ih =>
      intro i steps
      cases hd : decisions i with
      | finish answer => simp [runExecutorGo, hd]
      | act tool input =>
          have h := ih (i + 1) ((tool, input) :: steps)
          simp only [runExecutorGo, hd]
          simp only [List.length_cons] at h
          omega

theorem runExecutor_steps_length (maxIter : Nat) (decisions : Nat → AgentDecision) :
    (runExecutor maxIter decisions).intermediate_steps.length ≤ maxIter := by
  have h := runExecutorGo_steps_length decisions maxIter 0 []
  simpa [runExecutor] using h

/-- C7: for every query answered through the modelled executor, the total
number of tool invocations recorded in `tool_call_counts` is bounded by
the configured `max_iterations` (default 15). -/
theorem query_tool_budget (mem : Memory) (enable_guard skip_guard : Bool)
    (question : String) (guardCall : Except String String)
    (decisions : Nat → AgentDecision) :
    sumCounts ((MedicalAgent.query mem enable_guard skip_guard question guardCall
        (.ok (runExecutor settings.max_iterations decisions))).1.tool_call_counts)
      ≤ settings.max_iterations := by
  by_cases hg : (enable_guard && !skip_guard && !(is_medical_query question guardCall).1) = true
  · unfold MedicalAgent.query
    rw [if_pos hg]
    show sumCounts [] ≤ settings.max_iterations
    simp [sumCounts, settings]
  · have hg2 : (enable_guard && !skip_guard && !(is_medical_query question guardCall).1) = false := by
      revert hg
      cases (enable_guard && !skip_guard && !(is_medical_query question guardCall).1) <;> simp
    rw [query_ok_eq mem enable_guard skip_guard question guardCall _ hg2]
    show sumCounts (countToolUsage
        (runExecutor settings.max_iterations decisions).intermediate_steps)
      ≤ settings.max_iterations
    rw [sumCounts_countToolUsage]
    exact runExecutor_steps_length _ _

end MedAssist

namespace MedAssist

/-- C8: a guard-rejected query returns `rejected = true`, `success = false`
and leaves the conversation memory exactly as it was: no message is
appended for a rejected query (the returned state is the input state, for
every execution outcome). -/
theorem query_rejected_frame (mem : Memory) (question : String)
    (guardCall : Except String String) (ex : Except String ExecResult)
    (h : (is_medical_query question guardCall).1 = false) :
    (MedicalAgent.query mem true false question guardCall ex).1.rejected = true ∧
    (MedicalAgent.query mem true false question guardCall ex).1.success = false ∧
    (MedicalAgent.query mem true false question guardCall ex).2 = mem := by
  rw [query_rejected_eq mem question guardCall ex h]
  exact ⟨rfl, rfl, rfl⟩

/-- Witness for C8 at a concrete rejected query. -/
theorem query_rejected_frame_witness :
    (MedicalAgent.query ⟨10, [userMessage "old", assistantMessage "old answer" []]⟩
        true false "hello world" (.ok "NO - not medical")
        (.ok ⟨"unused", []⟩)).1.rejected = true ∧
    (MedicalAgent.query ⟨10, [userMessage "old", assistantMessage "old answer" []]⟩
        true false "hello world" (.ok "NO - not medical")
        (.ok ⟨"unused", []⟩)).1.success = false ∧
    (MedicalAgent.query ⟨10, [userMessage "old", assistantMessage "old answer" []]⟩
        true false "hello world" (.ok "NO - not medical")
        (.ok ⟨"unused", []⟩)).2
      = ⟨10, [userMessage "old", assistantMessage "old answer" []]⟩ :=
  query_rejected_frame ⟨10, [userMessage "old", assistantMessage "old answer" []]⟩
    "hello world" (.ok "NO - not medical") (.ok ⟨"unused", []⟩) (by decide)

/-- C9: on every non-empty history `export_history` raises an
`AttributeError` instead of returning the serialized history, because the
attribute `tools_used` it reads is not a declared field of `Message` (the
field is `tool_used`); for the same reason the `tools_used` keyword that
`add_exchange` passes at construction is dropped, so `tool_used` stays
`[]` on every stored message. -/
theorem export_history_attribute_error (mem : Memory) (resp : String)
    (tools : List String) (h : mem.history ≠ []) :
    mem.export_history = Except.error "AttributeError: tools_used" ∧
    (assistantMessage resp tools).tool_used = [] := by
  constructor
  · match hm : mem.history with
    | [] => exact absurd hm h
    | m :: rest =>
        unfold Memory.export_history
        rw [hm]
        rfl
  · rfl

/-- Witness for C9 at a concrete one-message history. -/
theorem export_history_attribute_error_witness :
    (⟨10, [userMessage "any question"]⟩ : Memory).export_history
      = Except.error "AttributeError: tools_used" :=
  (export_history_attribute_error ⟨10, [userMessage "any question"]⟩ "r" ["tool"]
    (by decide)).1

/-- C10: for every rejected query the returned `QueryResult` has
`rejected_reason = none` — the reason is passed under the keyword
`rejection_reason`, which is not a declared field of `QueryResult`, so
pydantic drops it and the reason survives only inside the rejection
message text of `response`. -/
theorem query_rejection_reason_dropped (mem : Memory) (question : String)
    (guardCall : Except String String) (ex : Except String ExecResult)
    (h : (is_medical_query question guardCall).1 = false) :
    (MedicalAgent.query mem true false question guardCall ex).1.rejected_reason = none ∧
    (MedicalAgent.query mem true false question guardCall ex).1.response
      = get_rejection_message (is_medical_query question guardCall).2 := by
  rw [query_rejected_eq mem question guardCall ex h]
  exact ⟨rfl, rfl⟩

/-- Witness for C10 at a concrete rejected query. -/
theorem query_rejection_reason_dropped_witness :
    (MedicalAgent.query ⟨10, []⟩ true false "how are you today"
        (.ok "NO - greeting") (.ok ⟨"unused", []⟩)).1.rejected_reason = none ∧
    (MedicalAgent.query ⟨10, []⟩ true false "how are you today"
        (.ok "NO - greeting") (.ok ⟨"unused", []⟩)).1.response
      = get_rejection_message
          (is_medical_query "how are you today" (.ok "NO - greeting")).2 :=
  query_rejection_reason_dropped ⟨10, []⟩ "how are you today" (.ok "NO - greeting")
    (.ok ⟨"unused", []⟩) (by decide)

end MedAssist
